import Mathlib

/-!
Shallow embedding of the forecasting core of the stock-tracker repository
(`src/utils/prediction.ts`) and proofs of its specified properties.

Conventions of the embedding:
* JavaScript numbers are modelled as real numbers (`ℝ`); `Math.sqrt` is
  `Real.sqrt` and `Math.exp` is `Real.exp`.
* `Array.prototype.slice(-k)` (trailing window, always called with `k ≥ 1`
  in this code) is modelled by `takeLast`.
* The `NaN` value pushed by `calculateMA` for indices with insufficient
  history is modelled by `Option ℝ` with `none` standing for `NaN`.
* `Math.random()` is modelled as an injected stream `rand : ℕ → ℝ` giving
  the draw consumed at forecast step `i`.
* `Number(x.toFixed(2))` (rounding to two decimals) is modelled by `round2`.
* JavaScript division of a nonzero number by zero yields `±Infinity` and
  `0/0` yields `NaN`; the embedding uses Lean's total division (`x / 0 = 0`).
  All theorems below are stated on inputs where no division by zero occurs
  or where the divergence is irrelevant to the stated property.
-/

noncomputable section

open Real

/-- Trailing window `l.slice(-k)` for `k ≥ 1`: the last `k` elements of `l`
(or all of `l` when `k ≥ l.length`). -/
def takeLast {α : Type} (l : List α) (k : ℕ) : List α :=
  l.drop (l.length - k)

/-- Rounding to two decimal places, `Number(x.toFixed(2))`. -/
def round2 (x : ℝ) : ℝ :=
  (round (x * 100) : ℤ) / 100

/-- Embedding of `calculateCorrelation(x, y)`: Pearson-style correlation
over the first `min (x.length) (y.length)` pairs. Note the source divides
the sum of ALL elements of each array by `n` when computing the means. -/
def calculateCorrelation (x y : List ℝ) : ℝ :=
  let n := min x.length y.length
  if n < 2 then 0 else
  let xMean := x.sum / (n : ℝ)
  let yMean := y.sum / (n : ℝ)
  let pairs := List.zip (x.take n) (y.take n)
  let numerator := (pairs.map (fun p => (p.1 - xMean) * (p.2 - yMean))).sum
  let xVariance := (pairs.map (fun p => (p.1 - xMean) * (p.1 - xMean))).sum
  let yVariance := (pairs.map (fun p => (p.2 - yMean) * (p.2 - yMean))).sum
  numerator / Real.sqrt (xVariance * yVariance)

/-- Embedding of `calculateReturns(prices)`: day-over-day fractional
returns, element `i` is `(prices[i+1] - prices[i]) / prices[i]`. -/
def calculateReturns (prices : List ℝ) : List ℝ :=
  List.zipWith (fun price prev => (price - prev) / prev) (prices.drop 1) prices

/-- Embedding of `calculateVolatility(prices, window)`: standard deviation
of the returns over the trailing `window` prices. The source's default
argument `window = 20` is passed explicitly at every call site. -/
def calculateVolatility (prices : List ℝ) (window : ℕ) : ℝ :=
  let returns := calculateReturns (takeLast prices window)
  let mean := returns.sum / (returns.length : ℝ)
  let variance := (returns.map (fun b => (b - mean) ^ 2)).sum / (returns.length : ℝ)
  Real.sqrt variance

/-- Day-over-day changes of the trailing `period + 1` prices, as computed
inside `calculateRSI` (the `map` + `slice(1)` idiom of the source). -/
def rsiChanges (prices : List ℝ) (period : ℕ) : List ℝ :=
  let window := takeLast prices (period + 1)
  List.zipWith (fun price prev => price - prev) (window.drop 1) window

/-- The `gains` list of `calculateRSI`. -/
def rsiGains (prices : List ℝ) (period : ℕ) : List ℝ :=
  (rsiChanges prices period).map (fun change => if change > 0 then change else 0)

/-- The `losses` list of `calculateRSI`. -/
def rsiLosses (prices : List ℝ) (period : ℕ) : List ℝ :=
  (rsiChanges prices period).map (fun change => if change < 0 then -change else 0)

/-- Embedding of `calculateRSI(prices, period)`. The source's default
argument `period = 14` is passed explicitly at every call site. -/
def calculateRSI (prices : List ℝ) (period : ℕ) : ℝ :=
  let avgGain := (rsiGains prices period).sum / (period : ℝ)
  let avgLoss := (rsiLosses prices period).sum / (period : ℝ)
  if avgLoss = 0 then 70
  else 100 - 100 / (1 + avgGain / avgLoss)

/-- Embedding of `calculateMA(prices, period)`: simple moving average,
`none` (= `NaN` in the source) for indices with insufficient history. -/
def calculateMA (prices : List ℝ) (period : ℕ) : List (Option ℝ) :=
  (List.range prices.length).map (fun i =>
    if i < period - 1 then none
    else some (((prices.drop (i + 1 - period)).take period).sum / (period : ℝ)))

/-- Embedding of `calculateMomentum(prices, period)`: mean trailing return,
`0` when fewer than `period` prices are available. The source's default
argument `period = 10` is passed explicitly at every call site. -/
def calculateMomentum (prices : List ℝ) (period : ℕ) : ℝ :=
  if prices.length < period then 0 else
  let returns := calculateReturns (takeLast prices period)
  returns.sum / (returns.length : ℝ)

/-- Embedding of `calculateMeanReversionSignal(price, ma20, ma50)`. -/
def calculateMeanReversionSignal (price ma20 ma50 : ℝ) : ℝ :=
  let shortTermDev := (price - ma20) / ma20
  let longTermDev := (price - ma50) / ma50
  (-(shortTermDev + longTermDev)) / 2

/-- Last element of a `calculateMA` result as a number, `arr[arr.length-1]`
in the source. On every path taken by `predictFuturePrices` the list is
non-empty and its last entry is numeric, so the defaults never fire. -/
def lastNum (l : List (Option ℝ)) : ℝ :=
  (l.getLastD none).getD 0

/-- The indicator snapshot computed once per invocation of
`predictFuturePrices`, before its forecast loop. -/
structure Indicators where
  volatility : ℝ
  rsi : ℝ
  momentum : ℝ
  ma20Last : ℝ
  ma50Last : ℝ
  correlation : ℝ
  recentSpyReturn : ℝ

/-- The snapshot computation of `predictFuturePrices`, applied to the
50-entry working window `recentPrices` and the raw reference series
`spyPrices`, exactly as in the source. -/
def computeIndicators (recentPrices spyPrices : List ℝ) : Indicators where
  volatility := calculateVolatility recentPrices 20
  rsi := calculateRSI recentPrices 14
  momentum := calculateMomentum recentPrices 10
  ma20Last := lastNum (calculateMA recentPrices 20)
  ma50Last := lastNum (calculateMA recentPrices 50)
  correlation :=
    calculateCorrelation (calculateReturns (takeLast spyPrices 20))
      (calculateReturns (takeLast recentPrices 20))
  recentSpyReturn :=
    (spyPrices.getD (spyPrices.length - 1) 0 - spyPrices.getD (spyPrices.length - 2) 0) /
      spyPrices.getD (spyPrices.length - 2) 0

/-- The weighted blend `expectedReturn` of the forecast loop body at step
`i`, for running price `currentPrice`. -/
def expectedReturn (ind : Indicators) (currentPrice : ℝ) (i : ℕ) : ℝ :=
  let meanReversionSignal :=
    calculateMeanReversionSignal currentPrice ind.ma20Last ind.ma50Last
  let rsiSignal := (50 - ind.rsi) / 50
  let marketInfluence := ind.recentSpyReturn * ind.correlation
  let momentumEffect := ind.momentum * Real.exp (-0.5 * i)
  meanReversionSignal * 0.3 + rsiSignal * 0.2 +
    marketInfluence * 0.3 + momentumEffect * 0.2

/-- The stochastic term `randomComponent` of the loop body at step `i`,
with `rand` the value drawn from `Math.random()` at that step. -/
def randomComponent (ind : Indicators) (i : ℕ) (rand : ℝ) : ℝ :=
  ind.volatility * (rand - 0.5) * Real.sqrt i

/-- The combined return `totalReturn` of the loop body. -/
def totalReturn (ind : Indicators) (currentPrice : ℝ) (i : ℕ) (rand : ℝ) : ℝ :=
  expectedReturn ind currentPrice i + randomComponent ind i rand

/-- The dampening factor `Math.exp(-0.1 * i)` of the loop body. -/
def dampening (i : ℕ) : ℝ :=
  Real.exp (-0.1 * i)

/-- The pre-clamp fractional daily change `change` of the loop body,
`totalReturn * volatility * dampening` in the source. -/
def change (ind : Indicators) (currentPrice : ℝ) (i : ℕ) (rand : ℝ) : ℝ :=
  totalReturn ind currentPrice i rand * ind.volatility * dampening i

/-- The clamp bound `maxChange = min(0.1, volatility * 2)`. -/
def maxChange (ind : Indicators) : ℝ :=
  min 0.1 (ind.volatility * 2)

/-- The clamped change `boundedChange` of the loop body. -/
def boundedChange (ind : Indicators) (currentPrice : ℝ) (i : ℕ) (rand : ℝ) : ℝ :=
  max (-(maxChange ind)) (min (maxChange ind) (change ind currentPrice i rand))

/-- One update of the running price: `currentPrice * (1 + boundedChange)`. -/
def stepPrice (ind : Indicators) (currentPrice : ℝ) (i : ℕ) (rand : ℝ) : ℝ :=
  currentPrice * (1 + boundedChange ind currentPrice i rand)

/-- The running price after `n` forecast steps, starting from `lastPrice`;
step `i` (numbered from 1 as in the source loop) consumes draw `rand i`.
The running price is NOT rounded between steps; only the pushed
predictions are. -/
def priceTrace (ind : Indicators) (lastPrice : ℝ) (rand : ℕ → ℝ) : ℕ → ℝ
  | 0 => lastPrice
  | n + 1 => stepPrice ind (priceTrace ind lastPrice rand n) (n + 1) (rand (n + 1))

/-- Embedding of `predictFuturePrices(targetPrices, spyPrices,
correlatedStocksPrices, daysToPredict)` with the random source injected as
`rand`. The imperative loop (update running price, push the 2-decimal
rounding) is expressed as a map of `round2 ∘ priceTrace` over the step
numbers `1 … daysToPredict`. -/
def predictFuturePrices (targetPrices spyPrices : List ℝ)
    (correlatedStocksPrices : List (List ℝ)) (daysToPredict : ℕ)
    (rand : ℕ → ℝ) : List ℝ :=
  if targetPrices.length < 50 then [] else
  let recentPrices := takeLast targetPrices 50
  let lastPrice := recentPrices.getLastD 0
  let ind := computeIndicators recentPrices spyPrices
  (List.range daysToPredict).map (fun k => round2 (priceTrace ind lastPrice rand (k + 1)))

end

/-! ## Theorems -/

/-- C1: for every target price sequence with fewer than 50 entries, and
every reference sequence, correlated-series list, horizon and random
stream, `predictFuturePrices` returns the empty sequence (the embedding is
a total function, so no exception is possible and no partial forecast is
produced). -/
theorem predict_short_history_empty (targetPrices spyPrices : List ℝ)
    (correlatedStocksPrices : List (List ℝ)) (daysToPredict : ℕ) (rand : ℕ → ℝ)
    (h : targetPrices.length < 50) :
    predictFuturePrices targetPrices spyPrices correlatedStocksPrices daysToPredict rand = [] := by
  simp [predictFuturePrices, h]

/-- Witness for C1 at a concrete input. -/
theorem predict_short_history_empty_witness :
    ([] : List ℝ).length < 50 ∧
      predictFuturePrices [] [1, 2] [[3]] 5 (fun _ => 0) = [] :=
  ⟨by decide, predict_short_history_empty [] [1, 2] [[3]] 5 (fun _ => 0) (by decide)⟩

/-- C2: for every target sequence with at least 50 entries, reference
sequence with at least 2 entries, and horizon `N`, `predictFuturePrices`
returns a sequence of length exactly `N` (one price per requested day, in
step order day 1 … day N by construction of the map over step numbers). -/
theorem predict_length_eq_horizon (targetPrices spyPrices : List ℝ)
    (correlatedStocksPrices : List (List ℝ)) (daysToPredict : ℕ) (rand : ℕ → ℝ)
    (h : 50 ≤ targetPrices.length) (hspy : 2 ≤ spyPrices.length) :
    (predictFuturePrices targetPrices spyPrices correlatedStocksPrices daysToPredict rand).length =
      daysToPredict := by
  rw [predictFuturePrices, if_neg (by omega)]
  simp

/-- Witness for C2 at a concrete input. -/
theorem predict_length_eq_horizon_witness :
    50 ≤ (List.replicate 50 (1 : ℝ)).length ∧ 2 ≤ ([1, 2] : List ℝ).length ∧
      (predictFuturePrices (List.replicate 50 (1 : ℝ)) [1, 2] [] 3 (fun _ => 0)).length = 3 :=
  ⟨by simp, by decide,
    predict_length_eq_horizon (List.replicate 50 (1 : ℝ)) [1, 2] [] 3 (fun _ => 0)
      (by simp) (by decide)⟩

/-- C9: the output of `predictFuturePrices` does not depend on its
`correlatedStocksPrices` parameter — the parameter is never read, so any
two values of it give identical outputs (all other inputs equal). -/
theorem predict_ignores_correlated_stocks (targetPrices spyPrices : List ℝ)
    (c₁ c₂ : List (List ℝ)) (daysToPredict : ℕ) (rand : ℕ → ℝ) :
    predictFuturePrices targetPrices spyPrices c₁ daysToPredict rand =
      predictFuturePrices targetPrices spyPrices c₂ daysToPredict rand := rfl

/-- C8: with the random component injected as an explicit stream,
`predictFuturePrices` and every indicator function are deterministic:
equal inputs give equal outputs, with no hidden state. -/
theorem predict_and_indicators_deterministic
    (t₁ t₂ s₁ s₂ x₁ x₂ y₁ y₂ : List ℝ) (c₁ c₂ : List (List ℝ))
    (d₁ d₂ p₁ p₂ : ℕ) (r₁ r₂ : ℕ → ℝ)
    (ht : t₁ = t₂) (hs : s₁ = s₂) (hc : c₁ = c₂) (hd : d₁ = d₂) (hr : r₁ = r₂)
    (hx : x₁ = x₂) (hy : y₁ = y₂) (hp : p₁ = p₂) :
    predictFuturePrices t₁ s₁ c₁ d₁ r₁ = predictFuturePrices t₂ s₂ c₂ d₂ r₂ ∧
    calculateCorrelation x₁ y₁ = calculateCorrelation x₂ y₂ ∧
    calculateReturns x₁ = calculateReturns x₂ ∧
    calculateVolatility x₁ p₁ = calculateVolatility x₂ p₂ ∧
    calculateRSI x₁ p₁ = calculateRSI x₂ p₂ ∧
    calculateMA x₁ p₁ = calculateMA x₂ p₂ ∧
    calculateMomentum x₁ p₁ = calculateMomentum x₂ p₂ := by
  subst ht hs hc hd hr hx hy hp
  exact ⟨rfl, rfl, rfl, rfl, rfl, rfl, rfl⟩

/-- Witness for C8 at concrete inputs. -/
theorem predict_and_indicators_deterministic_witness :
    predictFuturePrices [1] [2] [[3]] 4 (fun _ => 5) =
        predictFuturePrices [1] [2] [[3]] 4 (fun _ => 5) ∧
      calculateCorrelation [6] [7] = calculateCorrelation [6] [7] ∧
      calculateReturns [6] = calculateReturns [6] ∧
      calculateVolatility [6] 8 = calculateVolatility [6] 8 ∧
      calculateRSI [6] 8 = calculateRSI [6] 8 ∧
      calculateMA [6] 8 = calculateMA [6] 8 ∧
      calculateMomentum [6] 8 = calculateMomentum [6] 8 :=
  predict_and_indicators_deterministic [1] [1] [2] [2] [6] [6] [7] [7] [[3]] [[3]]
    4 4 8 8 (fun _ => 5) (fun _ => 5) rfl rfl rfl rfl rfl rfl rfl rfl

/-- C5: whenever the trailing day-over-day losses sum to 0 (so the average
loss is exactly 0), `calculateRSI` returns exactly 70 rather than the
textbook ceiling of 100. -/
theorem rsi_zero_loss_eq_70 (prices : List ℝ) (period : ℕ) (hp : 0 < period)
    (h : (rsiLosses prices period).sum = 0) :
    calculateRSI prices period = 70 := by
  simp [calculateRSI, h]

/-- Witness for C5 at a concrete input. -/
theorem rsi_zero_loss_eq_70_witness :
    0 < 14 ∧ (rsiLosses [] 14).sum = 0 ∧ calculateRSI [] 14 = 70 :=
  ⟨by decide, by simp [rsiLosses, rsiChanges, takeLast],
    rsi_zero_loss_eq_70 [] 14 (by decide) (by simp [rsiLosses, rsiChanges, takeLast])⟩

/-- Elements of the `gains` list are nonnegative. -/
theorem rsiGains_nonneg (prices : List ℝ) (period : ℕ) :
    ∀ g ∈ rsiGains prices period, 0 ≤ g := by
  intro g hg
  obtain ⟨c, _, rfl⟩ := List.mem_map.mp hg
  split
  · linarith
  · exact le_refl 0

/-- Elements of the `losses` list are nonnegative. -/
theorem rsiLosses_nonneg (prices : List ℝ) (period : ℕ) :
    ∀ l ∈ rsiLosses prices period, 0 ≤ l := by
  intro l hl
  obtain ⟨c, _, rfl⟩ := List.mem_map.mp hl
  split
  · linarith
  · exact le_refl 0

/-- C10: for every price sequence and positive period, `calculateRSI`
returns a value in `[0, 100)`: either the fixed 70, or `100 - 100/(1+rs)`
with `rs ≥ 0`; it never returns 100 or a negative value. -/
theorem rsi_mem_Ico (prices : List ℝ) (period : ℕ) (hp : 0 < period) :
    0 ≤ calculateRSI prices period ∧ calculateRSI prices period < 100 := by
  have hpR : (0 : ℝ) < (period : ℝ) := by exact_mod_cast hp
  have hg0 : 0 ≤ (rsiGains prices period).sum :=
    List.sum_nonneg (rsiGains_nonneg prices period)
  have hl0 : 0 ≤ (rsiLosses prices period).sum :=
    List.sum_nonneg (rsiLosses_nonneg prices period)
  rw [calculateRSI]
  by_cases h : (rsiLosses prices period).sum / (period : ℝ) = 0
  · rw [if_pos h]
    norm_num
  · rw [if_neg h]
    have hlpos : 0 < (rsiLosses prices period).sum / (period : ℝ) :=
      lt_of_le_of_ne (div_nonneg hl0 hpR.le) (Ne.symm h)
    have hrs : 0 ≤ (rsiGains prices period).sum / (period : ℝ) /
        ((rsiLosses prices period).sum / (period : ℝ)) :=
      div_nonneg (div_nonneg hg0 hpR.le) hlpos.le
    constructor
    · have hle : 100 / (1 + (rsiGains prices period).sum / (period : ℝ) /
          ((rsiLosses prices period).sum / (period : ℝ))) ≤ 100 / 1 := by
        apply div_le_div_of_nonneg_left (by norm_num) (by norm_num) (by linarith)
      linarith [hle]
    · have hpos : 0 < 100 / (1 + (rsiGains prices period).sum / (period : ℝ) /
          ((rsiLosses prices period).sum / (period : ℝ))) := by
        apply div_pos (by norm_num) (by linarith)
      linarith [hpos]

/-- Witness for C10 at a concrete input. -/
theorem rsi_mem_Ico_witness :
    0 < 14 ∧ 0 ≤ calculateRSI [3, 1] 14 ∧ calculateRSI [3, 1] 14 < 100 :=
  ⟨by decide, (rsi_mem_Ico [3, 1] 14 (by decide)).1, (rsi_mem_Ico [3, 1] 14 (by decide)).2⟩

/-- C6: `calculateMA prices period` (for `period ≥ 1`) has one entry per
price; every index strictly before `period - 1` is the non-numeric sentinel
`none`; index `period - 1` is the arithmetic mean of the first `period`
prices; and every later in-range index is the arithmetic mean of the
trailing `period` prices ending at that index. -/
theorem ma_spec (prices : List ℝ) (period : ℕ) (hp : 1 ≤ period) :
    (calculateMA prices period).length = prices.length ∧
    (∀ i, i < period - 1 → i < prices.length →
      (calculateMA prices period).get? i = some none) ∧
    (period - 1 < prices.length →
      (calculateMA prices period).get? (period - 1) =
        some (some ((prices.take period).sum / (period : ℝ)))) ∧
    (∀ i, period - 1 ≤ i → i < prices.length →
      (calculateMA prices period).get? i =
        some (some (((prices.drop (i + 1 - period)).take period).sum / (period : ℝ)))) := by
  refine ⟨by simp [calculateMA], ?_, ?_, ?_⟩
  · intro i hi hilen
    rw [calculateMA, List.get?_map, List.get?_range hilen]
    simp [hi]
  · intro hlen
    rw [calculateMA, List.get?_map, List.get?_range hlen]
    have h0 : period - 1 + 1 - period = 0 := by omega
    simp [h0]
  · intro i hi hilen
    rw [calculateMA, List.get?_map, List.get?_range hilen]
    have : ¬ i < period - 1 := by omega
    simp [this]

/-- Witness for C6 at a concrete input. -/
theorem ma_spec_witness :
    1 ≤ 3 ∧
    ((calculateMA [1, 2, 3, 4] 3).length = ([1, 2, 3, 4] : List ℝ).length ∧
      (∀ i, i < 3 - 1 → i < ([1, 2, 3, 4] : List ℝ).length →
        (calculateMA [1, 2, 3, 4] 3).get? i = some none) ∧
      (3 - 1 < ([1, 2, 3, 4] : List ℝ).length →
        (calculateMA [1, 2, 3, 4] 3).get? (3 - 1) =
          some (some ((([1, 2, 3, 4] : List ℝ).take 3).sum / (3 : ℝ)))) ∧
      (∀ i, 3 - 1 ≤ i → i < ([1, 2, 3, 4] : List ℝ).length →
        (calculateMA [1, 2, 3, 4] 3).get? i =
          some (some (((([1, 2, 3, 4] : List ℝ).drop (i + 1 - 3)).take 3).sum / (3 : ℝ))))) :=
  ⟨by decide, ma_spec [1, 2, 3, 4] 3 (by decide)⟩

/-- Zipping a list with itself pairs each element with itself. -/
theorem zip_self {α : Type} (l : List α) : List.zip l l = l.map (fun a => (a, a)) := by
  induction l with
  | nil => rfl
  | cons a t ih => simp [ih]

/-- A list of nonnegative reals containing a positive element has a
positive sum. -/
theorem sum_pos_of_mem_pos {l : List ℝ} (hnn : ∀ y ∈ l, 0 ≤ y)
    (hex : ∃ y ∈ l, 0 < y) : 0 < l.sum := by
  induction l with
  | nil => simp at hex
  | cons a t ih =>
    rw [List.sum_cons]
    obtain ⟨y, hy, hypos⟩ := hex
    rcases List.mem_cons.mp hy with rfl | h
    · have ht : 0 ≤ t.sum :=
        List.sum_nonneg (fun z hz => hnn z (List.mem_cons_of_mem _ hz))
      linarith
    · have ha := hnn a (List.mem_cons_self a t)
      have := ih (fun z hz => hnn z (List.mem_cons_of_mem _ hz)) ⟨y, h, hypos⟩
      linarith

/-- C7: `calculateCorrelation x x = 1` for every non-constant sequence `x`
of length at least 2. -/
theorem correlation_self_eq_one (x : List ℝ) (hlen : 2 ≤ x.length)
    (hnc : ∃ a ∈ x, ∃ b ∈ x, a ≠ b) :
    calculateCorrelation x x = 1 := by
  have hn : ¬ (min x.length x.length < 2) := by omega
  simp only [calculateCorrelation]
  rw [if_neg hn]
  simp only [min_self, List.take_length, zip_self, List.map_map, Function.comp_def]
  set m := x.sum / (x.length : ℝ) with hm
  set S := (x.map (fun a => (a - m) * (a - m))).sum with hS
  have hS0 : 0 ≤ S := by
    apply List.sum_nonneg
    intro z hz
    obtain ⟨a, _, rfl⟩ := List.mem_map.mp hz
    exact mul_self_nonneg _
  have hSpos : 0 < S := by
    obtain ⟨a, ha, b, hb, hab⟩ := hnc
    have key : ∃ e ∈ x, e ≠ m := by
      by_cases hA : a = m
      · exact ⟨b, hb, fun hbm => hab (hA.trans hbm.symm)⟩
      · exact ⟨a, ha, hA⟩
    obtain ⟨e, he, hem⟩ := key
    apply sum_pos_of_mem_pos
    · intro z hz
      obtain ⟨a', _, rfl⟩ := List.mem_map.mp hz
      exact mul_self_nonneg _
    · exact ⟨(e - m) * (e - m), List.mem_map.mpr ⟨e, he, rfl⟩,
        mul_self_pos.mpr (sub_ne_zero.mpr hem)⟩
  rw [Real.sqrt_mul_self hS0]
  exact div_self (ne_of_gt hSpos)

/-- Witness for C7 at a concrete input. -/
theorem correlation_self_eq_one_witness :
    2 ≤ ([1, 2] : List ℝ).length ∧
      (∃ a ∈ ([1, 2] : List ℝ), ∃ b ∈ ([1, 2] : List ℝ), a ≠ b) ∧
      calculateCorrelation [1, 2] [1, 2] = 1 :=
  ⟨by decide, ⟨1, by simp, 2, by simp, ne_of_lt one_lt_two⟩,
    correlation_self_eq_one [1, 2] (by decide) ⟨1, by simp, 2, by simp, ne_of_lt one_lt_two⟩⟩

/-- The volatility of a computed snapshot is a square root, hence
nonnegative. -/
theorem computeIndicators_volatility_nonneg (recentPrices spyPrices : List ℝ) :
    0 ≤ (computeIndicators recentPrices spyPrices).volatility := by
  simp only [computeIndicators, calculateVolatility]
  exact Real.sqrt_nonneg _

/-- The clamp bound `min(0.1, volatility*2)` is nonnegative whenever the
volatility is. -/
theorem maxChange_nonneg (ind : Indicators) (h : 0 ≤ ind.volatility) :
    0 ≤ maxChange ind :=
  le_min (by norm_num) (by linarith)

/-- The clamped change never exceeds the clamp bound in absolute value. -/
theorem abs_boundedChange_le (ind : Indicators) (currentPrice : ℝ) (i : ℕ)
    (rand : ℝ) (h : 0 ≤ ind.volatility) :
    |boundedChange ind currentPrice i rand| ≤ maxChange ind := by
  have hm : 0 ≤ maxChange ind := maxChange_nonneg ind h
  rw [boundedChange, abs_le]
  exact ⟨le_max_left _ _, max_le (by linarith) (min_le_left _ _)⟩

/-- C4: for every input with at least 50 target prices and at least 2
reference prices, every horizon and every random stream, each output entry
is the 2-decimal rounding of the running price, and each step of the
running price changes it by at most `min(0.1, volatility*2)` of its
previous value, where the volatility is computed once at the start. -/
theorem predict_change_clamped (targetPrices spyPrices : List ℝ)
    (correlatedStocksPrices : List (List ℝ)) (daysToPredict : ℕ) (rand : ℕ → ℝ)
    (h : 50 ≤ targetPrices.length) (hspy : 2 ≤ spyPrices.length) :
    (∀ k, k < daysToPredict →
      (predictFuturePrices targetPrices spyPrices correlatedStocksPrices
          daysToPredict rand).get? k =
        some (round2 (priceTrace (computeIndicators (takeLast targetPrices 50) spyPrices)
          ((takeLast targetPrices 50).getLastD 0) rand (k + 1)))) ∧
    (∀ i,
      |priceTrace (computeIndicators (takeLast targetPrices 50) spyPrices)
          ((takeLast targetPrices 50).getLastD 0) rand (i + 1) -
        priceTrace (computeIndicators (takeLast targetPrices 50) spyPrices)
          ((takeLast targetPrices 50).getLastD 0) rand i| ≤
      maxChange (computeIndicators (takeLast targetPrices 50) spyPrices) *
        |priceTrace (computeIndicators (takeLast targetPrices 50) spyPrices)
          ((takeLast targetPrices 50).getLastD 0) rand i|) := by
  constructor
  · intro k hk
    rw [predictFuturePrices, if_neg (by omega)]
    rw [List.get?_map, List.get?_range hk]
    rfl
  · intro i
    set ind := computeIndicators (takeLast targetPrices 50) spyPrices with hind
    set lp := (takeLast targetPrices 50).getLastD 0 with hlp
    set p := priceTrace ind lp rand i with hpdef
    have hv : 0 ≤ ind.volatility := by
      rw [hind]
      exact computeIndicators_volatility_nonneg _ _
    have hb := abs_boundedChange_le ind p (i + 1) (rand (i + 1)) hv
    have hstep : priceTrace ind lp rand (i + 1) =
        p * (1 + boundedChange ind p (i + 1) (rand (i + 1))) := rfl
    rw [hstep]
    have hdiff : p * (1 + boundedChange ind p (i + 1) (rand (i + 1))) - p =
        p * boundedChange ind p (i + 1) (rand (i + 1)) := by ring
    rw [hdiff, abs_mul, mul_comm (maxChange ind) |p|]
    exact mul_le_mul_of_nonneg_left hb (abs_nonneg _)

/-- Witness for C4 at a concrete input. -/
theorem predict_change_clamped_witness :
    50 ≤ (List.replicate 50 (1 : ℝ)).length ∧ 2 ≤ ([1, 2] : List ℝ).length ∧
    ((∀ k, k < 1 →
      (predictFuturePrices (List.replicate 50 (1 : ℝ)) [1, 2] [] 1 (fun _ => 0)).get? k =
        some (round2 (priceTrace
          (computeIndicators (takeLast (List.replicate 50 (1 : ℝ)) 50) [1, 2])
          ((takeLast (List.replicate 50 (1 : ℝ)) 50).getLastD 0) (fun _ => 0) (k + 1)))) ∧
    (∀ i,
      |priceTrace (computeIndicators (takeLast (List.replicate 50 (1 : ℝ)) 50) [1, 2])
          ((takeLast (List.replicate 50 (1 : ℝ)) 50).getLastD 0) (fun _ => 0) (i + 1) -
        priceTrace (computeIndicators (takeLast (List.replicate 50 (1 : ℝ)) 50) [1, 2])
          ((takeLast (List.replicate 50 (1 : ℝ)) 50).getLastD 0) (fun _ => 0) i| ≤
      maxChange (computeIndicators (takeLast (List.replicate 50 (1 : ℝ)) 50) [1, 2]) *
        |priceTrace (computeIndicators (takeLast (List.replicate 50 (1 : ℝ)) 50) [1, 2])
          ((takeLast (List.replicate 50 (1 : ℝ)) 50).getLastD 0) (fun _ => 0) i|)) :=
  ⟨by simp, by decide,
    predict_change_clamped (List.replicate 50 (1 : ℝ)) [1, 2] [] 1 (fun _ => 0)
      (by simp) (by decide)⟩

/-- Trailing window of a constant list is a constant list. -/
theorem takeLast_replicate {α : Type} (n k : ℕ) (a : α) :
    takeLast (List.replicate n a) k = List.replicate (min n k) a := by
  simp only [takeLast, List.length_replicate, List.drop_replicate]
  congr 1
  omega

/-- Zipping two constant lists pointwise gives a constant list of the
combined value. -/
theorem zipWith_replicate_min {α β γ : Type} (f : α → β → γ) :
    ∀ (m n : ℕ) (a : α) (b : β),
      List.zipWith f (List.replicate m a) (List.replicate n b) =
        List.replicate (min m n) (f a b) := by
  intro m
  induction m with
  | zero => intro n a b; simp
  | succ k ih =>
    intro n a b
    cases n with
    | zero => simp
    | succ j =>
      simp only [List.replicate_succ, List.zipWith_cons_cons, ih, Nat.succ_min_succ]

/-- Returns of a constant price list are all zero. -/
theorem returns_replicate (n : ℕ) (a : ℝ) :
    calculateReturns (List.replicate n a) = List.replicate (n - 1) 0 := by
  rw [calculateReturns, List.drop_replicate, zipWith_replicate_min]
  have hmin : min (n - 1) n = n - 1 := by omega
  rw [hmin]
  congr 1
  rw [sub_self, zero_div]

/-- Volatility of a constant price list is zero. -/
theorem volatility_replicate (n w : ℕ) (a : ℝ) :
    calculateVolatility (List.replicate n a) w = 0 := by
  simp only [calculateVolatility, takeLast_replicate, returns_replicate]
  simp [List.sum_replicate, List.map_replicate]

/-- RSI of a constant price list hits the zero-average-loss branch and
returns 70. -/
theorem rsi_replicate (n p : ℕ) (a : ℝ) :
    calculateRSI (List.replicate n a) p = 70 := by
  have hch : rsiChanges (List.replicate n a) p =
      List.replicate (min n (p + 1) - 1) 0 := by
    simp only [rsiChanges, takeLast_replicate, List.drop_replicate,
      zipWith_replicate_min]
    rw [sub_self]
    congr 1
    omega
  have hl : (rsiLosses (List.replicate n a) p).sum = 0 := by
    rw [rsiLosses, hch, List.map_replicate]
    simp
  simp [calculateRSI, hl]

/-- Momentum of a constant price list (long enough for the window) is
zero. -/
theorem momentum_replicate (n p : ℕ) (a : ℝ) (h : p ≤ n) :
    calculateMomentum (List.replicate n a) p = 0 := by
  simp only [calculateMomentum, List.length_replicate]
  rw [if_neg (by omega)]
  simp only [takeLast_replicate, returns_replicate]
  simp

/-- The last entry of a map over `List.range n` (for `n > 0`). -/
theorem getLastD_map_range {α : Type} (f : ℕ → α) (n : ℕ) (d : α) (h : 0 < n) :
    ((List.range n).map f).getLastD d = f (n - 1) := by
  cases n with
  | zero => omega
  | succ k =>
    rw [List.range_succ, List.map_append]
    simp

/-- The last moving-average entry over a constant price list (window no
longer than the list) is the constant itself. -/
theorem lastNum_ma_replicate (n p : ℕ) (a : ℝ) (h1 : 1 ≤ p) (h2 : p ≤ n) :
    lastNum (calculateMA (List.replicate n a) p) = a := by
  rw [lastNum, calculateMA, List.length_replicate,
    getLastD_map_range _ _ _ (by omega), if_neg (by omega)]
  have hidx : n - 1 + 1 - p = n - p := by omega
  rw [hidx, List.drop_replicate, List.take_replicate]
  have hmin : min p (n - (n - p)) = p := by omega
  rw [hmin, List.sum_replicate, nsmul_eq_mul, Option.getD_some]
  exact mul_div_cancel_left₀ a (Nat.cast_ne_zero.mpr (by omega))

/-- The indicator snapshot of a constant run: 50 constant target prices at
100 and a flat two-entry reference series. Volatility is 0, RSI hits its
fixed 70, momentum and both market terms vanish, the moving averages equal
the constant price. -/
theorem computeIndicators_const :
    computeIndicators (List.replicate 50 (100 : ℝ)) [100, 100] =
      ⟨0, 70, 0, 100, 100, 0, 0⟩ := by
  simp only [computeIndicators, Indicators.mk.injEq]
  refine ⟨?_, ?_, ?_, ?_, ?_, ?_, ?_⟩
  · exact volatility_replicate 50 20 100
  · exact rsi_replicate 50 14 100
  · exact momentum_replicate 50 10 100 (by omega)
  · exact lastNum_ma_replicate 50 20 100 (by omega) (by omega)
  · exact lastNum_ma_replicate 50 50 100 (by omega) (by omega)
  · have hx : calculateReturns (takeLast [(100 : ℝ), 100] 20) = [0] := by
      simp [takeLast, calculateReturns]
    have hy : calculateReturns (takeLast (List.replicate 50 (100 : ℝ)) 20) =
        List.replicate 19 0 := by
      rw [takeLast_replicate]
      norm_num [returns_replicate]
    rw [hx, hy]
    simp [calculateCorrelation]
  · simp [List.getD]

/-- C3 counterexample: in the run of `predictFuturePrices` on 50 constant
target prices at 100 with a flat reference series, at forecast step 1
(running price 100 — the last working-window price, first conjunct — and
random draw 0) the source's pre-clamp change is `totalReturn * volatility
* dampening = 0` (volatility is 0 here), while the claimed formula
`totalReturn * dampening = -0.08 * exp(-0.1)` is nonzero: the claim omits
the extra volatility factor. -/
theorem change_formula_counterexample :
    (takeLast (List.replicate 50 (100 : ℝ)) 50).getLastD 0 = 100 ∧
    change (computeIndicators (takeLast (List.replicate 50 (100 : ℝ)) 50) [100, 100])
        100 1 0 ≠
      totalReturn (computeIndicators (takeLast (List.replicate 50 (100 : ℝ)) 50) [100, 100])
          100 1 0 * dampening 1 := by
  have htl : takeLast (List.replicate 50 (100 : ℝ)) 50 = List.replicate 50 (100 : ℝ) := by
    rw [takeLast_replicate]
    norm_num
  constructor
  · rw [htl]
    have h49 : List.replicate 50 (100 : ℝ) = List.replicate 49 100 ++ [100] :=
      (List.replicate_succ' 49 (100 : ℝ)).symm ▸ rfl
    rw [h49]
    simp
  · rw [htl, computeIndicators_const]
    simp only [change, totalReturn, expectedReturn, randomComponent, dampening,
      calculateMeanReversionSignal]
    norm_num

/-- C3 (amended): for every snapshot, running price, step and draw, the
pre-clamp fractional daily change equals the combined return (weighted
blend plus stochastic term) multiplied by the snapshot volatility and by
the dampening factor `exp(-0.1 * i)`. -/
theorem change_eq_combined_mul_volatility_mul_dampening
    (ind : Indicators) (currentPrice : ℝ) (i : ℕ) (rand : ℝ) :
    change ind currentPrice i rand =
      (expectedReturn ind currentPrice i + randomComponent ind i rand) *
        ind.volatility * dampening i := rfl
